import Mathlib

/-!
Shallow embedding of the FUOTA deployment storage layer
(`internal/storage/fuota_deployment.go` of lora-app-server).

The durable store is modelled as in-memory lists of table rows.  SQL
statements are translated into list operations with the same observable
behaviour: `insert` appends a row (failing on a duplicate primary key),
`select ... where id = $1` is `List.find?`, the pending-batch query is
filter / skip-locked-filter / take, and `update ... where id = $1` maps a
row-transformer over the table with `rows affected` the number of matching
rows.  Values read from the environment by the Go code (`time.Now()`,
`uuid.NewV4()`) are explicit parameters.  Times, durations and Go `int`
fields are `Int`; byte strings are `List Nat`; UUIDs and EUI64s are `Nat`.
-/

deriving instance DecidableEq for Except

namespace FuotaStorage

/-- FUOTA deployment states (Go `FUOTADeploymentState`, a string type). -/
def FUOTADeploymentMulticastSetup : String := "MC_SETUP"

def FUOTADeploymentFragmentationSessSetup : String := "FRAG_SESS_SETUP"

def FUOTADeploymentMulticastSessCSetup : String := "MC_SESS_C_SETUP"

def FUOTADeploymentEnqueue : String := "ENQUEUE"

def FUOTADeploymentWaitingTx : String := "WAITING_TX"

def FUOTADeploymentTransmitted : String := "TRANSMITTED"

def FUOTADeploymentStatusRequested : String := "STATUS_REQUESTED"

def FUOTADeploymentDone : String := "DONE"

/-- FUOTA deployment device states (Go `FUOTADeploymentDeviceState`). -/
def FUOTADeploymentDevicePending : String := "PENDING"

def FUOTADeploymentDeviceSuccess : String := "SUCCESS"

def FUOTADeploymentDeviceError : String := "ERROR"

/-- Go `[4]byte`: a fixed four-byte descriptor. -/
structure Byte4 where
  b0 : Nat
  b1 : Nat
  b2 : Nat
  b3 : Nat
deriving DecidableEq

/-- Go slicing `fd.Descriptor[:]`: the four bytes as a byte slice. -/
def Byte4.toList (d : Byte4) : List Nat := [d.b0, d.b1, d.b2, d.b3]

/-- Go struct `FUOTADeployment`. -/
structure FUOTADeployment where
  ID : Nat
  CreatedAt : Int
  UpdatedAt : Int
  Name : String
  MulticastGroupID : Option Nat
  FragmentationMatrix : Nat
  Descriptor : Byte4
  Payload : List Nat
  FragSize : Int
  Redundancy : Int
  BlockAckDelay : Int
  MulticastTimeout : Int
  State : String
  UnicastTimeout : Int
  NextStepAfter : Int
deriving DecidableEq

/-- A row of the `fuota_deployment` table, with the column types the SQL
statements store: `fragmentation_matrix` and `descriptor` are byte strings
(`bytea`), written as `[]byte{fd.FragmentationMatrix}` and
`fd.Descriptor[:]` by the insert/update statements. -/
structure FuotaDeploymentRow where
  id : Nat
  created_at : Int
  updated_at : Int
  name : String
  multicast_group_id : Option Nat
  fragmentation_matrix : List Nat
  descriptor : List Nat
  payload : List Nat
  state : String
  next_step_after : Int
  unicast_timeout : Int
  frag_size : Int
  redundancy : Int
  block_ack_delay : Int
  multicast_timeout : Int
deriving DecidableEq

/-- A row of the `fuota_deployment_device` table. -/
structure FuotaDeploymentDeviceRow where
  fuota_deployment_id : Nat
  dev_eui : Nat
  created_at : Int
  updated_at : Int
  state : String
  error_message : String
deriving DecidableEq

/-- The durable store: the two tables the FUOTA storage code touches. -/
structure Db where
  fuota_deployment : List FuotaDeploymentRow
  fuota_deployment_device : List FuotaDeploymentDeviceRow
deriving DecidableEq

/-- Referential integrity of the store: every participation row points at an
existing deployment row (the schema's foreign key). -/
def Db.wf (db : Db) : Prop :=
  ∀ dr ∈ db.fuota_deployment_device,
    ∃ r ∈ db.fuota_deployment, r.id = dr.fuota_deployment_id

instance (db : Db) : Decidable db.wf := by
  unfold Db.wf; infer_instance

/-- Errors surfaced by the storage operations: `ErrDoesNotExist` for a
missing row, a duplicate-key insert error, the scanner's integrity errors
(`fmt.Errorf` in `scanFUOTADeployment`), and the store's rejection of a
negative `limit`. -/
inductive StorageError where
  | doesNotExist
  | duplicateKey
  | scanError (msg : String)
  | invalidLimit
deriving DecidableEq

/-- Go `scanFUOTADeployment`: reads one row into a `FUOTADeployment`,
rejecting a `fragmentation_matrix` whose stored length is not 1 and a
`descriptor` whose stored length is not 4, in that order. -/
def scanFUOTADeployment (row : FuotaDeploymentRow) : Except StorageError FUOTADeployment :=
  match row.fragmentation_matrix with
  | [fm] =>
    match row.descriptor with
    | [a, b, c, d] =>
      Except.ok
        { ID := row.id
          CreatedAt := row.created_at
          UpdatedAt := row.updated_at
          Name := row.name
          MulticastGroupID := row.multicast_group_id
          FragmentationMatrix := fm
          Descriptor := ⟨a, b, c, d⟩
          Payload := row.payload
          FragSize := row.frag_size
          Redundancy := row.redundancy
          BlockAckDelay := row.block_ack_delay
          MulticastTimeout := row.multicast_timeout
          State := row.state
          UnicastTimeout := row.unicast_timeout
          NextStepAfter := row.next_step_after }
    | _ =>
      Except.error (StorageError.scanError
        ("Descriptor must have length: 4, got: " ++ toString row.descriptor.length))
  | _ =>
    Except.error (StorageError.scanError
      ("FragmentationMatrix must have length 1, got: " ++
        toString row.fragmentation_matrix.length))

/-- The deployment row that `CreateFUOTADeploymentForDevice`'s insert
statement writes for a stamped deployment: the column list of the `insert`
statement, with `fragmentation_matrix` stored as the one-byte string
`[]byte{fd.FragmentationMatrix}` and `descriptor` as `fd.Descriptor[:]`. -/
def rowOfDeployment (fd : FUOTADeployment) : FuotaDeploymentRow :=
  { id := fd.ID
    created_at := fd.CreatedAt
    updated_at := fd.UpdatedAt
    name := fd.Name
    multicast_group_id := fd.MulticastGroupID
    fragmentation_matrix := [fd.FragmentationMatrix]
    descriptor := fd.Descriptor.toList
    payload := fd.Payload
    state := fd.State
    next_step_after := fd.NextStepAfter
    unicast_timeout := fd.UnicastTimeout
    frag_size := fd.FragSize
    redundancy := fd.Redundancy
    block_ack_delay := fd.BlockAckDelay
    multicast_timeout := fd.MulticastTimeout }

/-- The field updates `CreateFUOTADeploymentForDevice` performs on the
passed deployment before inserting it: assign the fresh UUID, stamp
`CreatedAt`, `UpdatedAt` and `NextStepAfter` with `now`, and default an
unset (empty-string) state to Multicast-Setup. -/
def stampDeployment (fd : FUOTADeployment) (now : Int) (newId : Nat) : FUOTADeployment :=
  { fd with
    ID := newId
    CreatedAt := now
    UpdatedAt := now
    NextStepAfter := now
    State := if fd.State = "" then FUOTADeploymentMulticastSetup else fd.State }

/-- The pending participation row `CreateFUOTADeploymentForDevice` inserts
into `fuota_deployment_device`. -/
def devRowOf (depId devEUI : Nat) (now : Int) : FuotaDeploymentDeviceRow :=
  { fuota_deployment_id := depId
    dev_eui := devEUI
    created_at := now
    updated_at := now
    state := FUOTADeploymentDevicePending
    error_message := "" }

/-- Go `CreateFUOTADeploymentForDevice`: stamps the deployment (see
`stampDeployment`), then inserts the deployment row and the pending
participation row for `devEUI` in the same operation.  `now` stands for
`time.Now()` and `newId` for the UUID drawn by `uuid.NewV4()`; the insert
fails on a duplicate primary key. -/
def CreateFUOTADeploymentForDevice (db : Db) (fd : FUOTADeployment) (devEUI : Nat)
    (now : Int) (newId : Nat) : Except StorageError (Db × FUOTADeployment) :=
  if db.fuota_deployment.any (fun r => r.id == newId) then
    Except.error StorageError.duplicateKey
  else
    Except.ok
      ({ fuota_deployment :=
           db.fuota_deployment ++ [rowOfDeployment (stampDeployment fd now newId)]
         fuota_deployment_device :=
           db.fuota_deployment_device ++ [devRowOf newId devEUI now] },
       stampDeployment fd now newId)

/-- Go `GetFUOTADeployment`: selects the row with the given id (the
`for update` locking flag has no effect on the returned value) and scans
it; no row yields `ErrDoesNotExist`. -/
def GetFUOTADeployment (db : Db) (id : Nat) : Except StorageError FUOTADeployment :=
  match db.fuota_deployment.find? (fun r => r.id == id) with
  | none => Except.error StorageError.doesNotExist
  | some row => scanFUOTADeployment row

/-- The `where` clause of the pending-deployments query:
`state != 'DONE' and next_step_after <= now and multicast_group_id IS NOT NULL`. -/
def pendingWhere (now : Int) (r : FuotaDeploymentRow) : Bool :=
  r.state != FUOTADeploymentDone && decide (r.next_step_after ≤ now) &&
    r.multicast_group_id.isSome

/-- The row-scanning loop of `GetPendingFUOTADeployments`: scan each row in
order, returning the first scan error, else the list of deployments. -/
def scanAll : List FuotaDeploymentRow → Except StorageError (List FUOTADeployment)
  | [] => Except.ok []
  | r :: rs =>
    match scanFUOTADeployment r with
    | Except.error e => Except.error e
    | Except.ok item =>
      match scanAll rs with
      | Except.error e => Except.error e
      | Except.ok out => Except.ok (item :: out)

/-- Go `GetPendingFUOTADeployments`: rows satisfying the `where` clause,
minus rows currently locked by other transactions (`skip locked`, the
`locked` parameter), limited to `batchSize` rows, each scanned in turn.
A negative `limit` is rejected by the store. -/
def GetPendingFUOTADeployments (db : Db) (batchSize : Int) (now : Int)
    (locked : List Nat) : Except StorageError (List FUOTADeployment) :=
  if batchSize < 0 then
    Except.error StorageError.invalidLimit
  else
    scanAll
      (((db.fuota_deployment.filter (pendingWhere now)).filter
          (fun r => !(locked.contains r.id))).take batchSize.toNat)

/-- The `set` clause of `UpdateFUOTADeployment` applied to one row: a row
matching the deployment's id gets every field of the update statement;
`id` and `created_at` are not in the `set` list.  `fd` is the deployment
after its `UpdatedAt` was stamped. -/
def applyUpdate (fd : FUOTADeployment) (r : FuotaDeploymentRow) : FuotaDeploymentRow :=
  if r.id == fd.ID then
    { r with
      updated_at := fd.UpdatedAt
      name := fd.Name
      multicast_group_id := fd.MulticastGroupID
      fragmentation_matrix := [fd.FragmentationMatrix]
      descriptor := fd.Descriptor.toList
      payload := fd.Payload
      state := fd.State
      next_step_after := fd.NextStepAfter
      unicast_timeout := fd.UnicastTimeout
      frag_size := fd.FragSize
      redundancy := fd.Redundancy
      block_ack_delay := fd.BlockAckDelay
      multicast_timeout := fd.MulticastTimeout }
  else r

/-- Go `UpdateFUOTADeployment`: first overwrites the passed deployment's
`UpdatedAt` with `time.Now()` (the `now` parameter), then runs the update
statement; when no row matched (`RowsAffected == 0`) it returns
`ErrDoesNotExist`.  The first component is the caller's in-memory
deployment after the call (Go mutates it through the pointer); the second
is the store outcome. -/
def UpdateFUOTADeployment (db : Db) (fd : FUOTADeployment) (now : Int) :
    FUOTADeployment × Except StorageError Db :=
  if (db.fuota_deployment.filter (fun r => r.id == fd.ID)).length = 0 then
    ({ fd with UpdatedAt := now }, Except.error StorageError.doesNotExist)
  else
    ({ fd with UpdatedAt := now },
      Except.ok
        { db with
          fuota_deployment :=
            db.fuota_deployment.map (applyUpdate { fd with UpdatedAt := now }) })

/- ### Helper lemmas -/

theorem scan_ok_fields {r : FuotaDeploymentRow} {fd : FUOTADeployment}
    (h : scanFUOTADeployment r = Except.ok fd) :
    fd.State = r.state ∧ fd.NextStepAfter = r.next_step_after ∧
      fd.MulticastGroupID = r.multicast_group_id := by
  unfold scanFUOTADeployment at h
  split at h
  · split at h
    · obtain rfl := Except.ok.inj h
      exact ⟨rfl, rfl, rfl⟩
    · exact Except.noConfusion h
  · exact Except.noConfusion h

theorem scanAll_mem {rs : List FuotaDeploymentRow} {out : List FUOTADeployment}
    {fd : FUOTADeployment} (h : scanAll rs = Except.ok out) (hmem : fd ∈ out) :
    ∃ r ∈ rs, scanFUOTADeployment r = Except.ok fd := by
  induction rs generalizing out with
  | nil =>
    obtain rfl := Except.ok.inj h
    exact absurd hmem (List.not_mem_nil fd)
  | cons r rs ih =>
    unfold scanAll at h
    split at h
    · exact Except.noConfusion h
    next item hitem =>
      split at h
      · exact Except.noConfusion h
      next rest hrest =>
        obtain rfl := Except.ok.inj h
        rcases List.mem_cons.mp hmem with rfl | hmem'
        · exact ⟨r, List.mem_cons_self r rs, hitem⟩
        · obtain ⟨r', hr', hscan⟩ := ih hrest hmem'
          exact ⟨r', List.mem_cons_of_mem r hr', hscan⟩

theorem scanAll_length {rs : List FuotaDeploymentRow} {out : List FUOTADeployment}
    (h : scanAll rs = Except.ok out) : out.length = rs.length := by
  induction rs generalizing out with
  | nil => obtain rfl := Except.ok.inj h; rfl
  | cons r rs ih =>
    unfold scanAll at h
    split at h
    · exact Except.noConfusion h
    · split at h
      · exact Except.noConfusion h
      next rest hrest =>
        obtain rfl := Except.ok.inj h
        simp [ih hrest]

theorem scanAll_error_of_mem {rs : List FuotaDeploymentRow} {r : FuotaDeploymentRow}
    {e : StorageError} (hmem : r ∈ rs) (he : scanFUOTADeployment r = Except.error e) :
    ∃ e', scanAll rs = Except.error e' := by
  induction rs with
  | nil => exact absurd hmem (List.not_mem_nil r)
  | cons a rs ih =>
    unfold scanAll
    rcases List.mem_cons.mp hmem with rfl | hmem'
    · rw [he]; exact ⟨e, rfl⟩
    · split
      next e' _ => exact ⟨e', rfl⟩
      · obtain ⟨e', he'⟩ := ih hmem'
        rw [he']
        exact ⟨e', rfl⟩

theorem find_append_of_all_false (p : FuotaDeploymentRow → Bool)
    (l1 l2 : List FuotaDeploymentRow) (h : ∀ x ∈ l1, p x = false) :
    (l1 ++ l2).find? p = l2.find? p := by
  induction l1 with
  | nil => rfl
  | cons a l ih =>
    rw [List.cons_append, List.find?_cons_of_neg, ih]
    · intro x hx; exact h x (List.mem_cons_of_mem a hx)
    · simp [h a (List.mem_cons_self a l)]

theorem scan_rowOfDeployment (fd : FUOTADeployment) :
    scanFUOTADeployment (rowOfDeployment fd) = Except.ok fd := by
  obtain ⟨ID, CreatedAt, UpdatedAt, Name, MulticastGroupID, FragmentationMatrix,
    ⟨b0, b1, b2, b3⟩, Payload, FragSize, Redundancy, BlockAckDelay, MulticastTimeout,
    State, UnicastTimeout, NextStepAfter⟩ := fd
  rfl

/- ### Concrete sample data (mirroring the repository's storage test) -/

/-- An empty store. -/
def dbEmpty : Db := { fuota_deployment := [], fuota_deployment_device := [] }

/-- A well-formed stored deployment row, due at time 5. -/
def rowA : FuotaDeploymentRow :=
  { id := 1, created_at := 0, updated_at := 0, name := "a",
    multicast_group_id := some 9, fragmentation_matrix := [3],
    descriptor := [1, 2, 3, 4], payload := [5, 6, 7, 8],
    state := "MC_SETUP", next_step_after := 5, unicast_timeout := 60,
    frag_size := 10, redundancy := 20, block_ack_delay := 6,
    multicast_timeout := 3 }

/-- A store holding just `rowA`. -/
def dbA : Db := { fuota_deployment := [rowA], fuota_deployment_device := [] }

/-- The deployment value `rowA` scans to. -/
def fdA : FUOTADeployment :=
  { ID := 1, CreatedAt := 0, UpdatedAt := 0, Name := "a",
    MulticastGroupID := some 9, FragmentationMatrix := 3,
    Descriptor := ⟨1, 2, 3, 4⟩, Payload := [5, 6, 7, 8], FragSize := 10,
    Redundancy := 20, BlockAckDelay := 6, MulticastTimeout := 3,
    State := "MC_SETUP", UnicastTimeout := 60, NextStepAfter := 5 }

/-- A stored row whose `descriptor` byte string has length 3 instead of 4. -/
def rowBad : FuotaDeploymentRow := { rowA with id := 2, descriptor := [1, 2, 3] }

/-- A store holding just the malformed `rowBad`. -/
def dbBad : Db := { fuota_deployment := [rowBad], fuota_deployment_device := [] }

theorem scan_malformed {r : FuotaDeploymentRow}
    (hbad : r.fragmentation_matrix.length ≠ 1 ∨ r.descriptor.length ≠ 4) :
    ∃ msg, scanFUOTADeployment r = Except.error (StorageError.scanError msg) := by
  unfold scanFUOTADeployment
  split
  next fm hfm =>
    split
    next a b c d hd =>
      exfalso
      rcases hbad with h | h
      · apply h; rw [hfm]; rfl
      · apply h; rw [hd]; rfl
    next => exact ⟨_, rfl⟩
  next => exact ⟨_, rfl⟩

/- ### Claim theorems -/

/-- C1: every deployment returned by `GetPendingFUOTADeployments` satisfies
all three conjuncts of the selection predicate — its state is not Done, its
next-eligible-time is at or before the query time, and its multicast group
reference is set; in particular a deployment with no multicast group, or in
state Done, is never returned. -/
theorem getPending_selection_predicate (db : Db) (batchSize now : Int)
    (locked : List Nat) (out : List FUOTADeployment) (fd : FUOTADeployment)
    (hok : GetPendingFUOTADeployments db batchSize now locked = Except.ok out)
    (hmem : fd ∈ out) :
    fd.State ≠ FUOTADeploymentDone ∧ fd.NextStepAfter ≤ now ∧
      fd.MulticastGroupID.isSome = true := by
  unfold GetPendingFUOTADeployments at hok
  split at hok
  · exact Except.noConfusion hok
  · obtain ⟨r, hr, hscan⟩ := scanAll_mem hok hmem
    have hr1 : r ∈ (db.fuota_deployment.filter (pendingWhere now)).filter
        (fun r => !(locked.contains r.id)) := List.take_subset _ _ hr
    have hr2 : r ∈ db.fuota_deployment.filter (pendingWhere now) :=
      (List.mem_filter.mp hr1).1
    have hpred : pendingWhere now r = true := (List.mem_filter.mp hr2).2
    unfold pendingWhere at hpred
    simp only [Bool.and_eq_true, bne_iff_ne, decide_eq_true_eq] at hpred
    obtain ⟨hs, hn, hm⟩ := scan_ok_fields hscan
    rw [hs, hn, hm]
    exact ⟨hpred.1.1, hpred.1.2, hpred.2⟩

/-- C1 witness: a concrete store on which the due-batch query returns a
deployment, and the selection predicate holds for it. -/
theorem getPending_selection_predicate_witness :
    GetPendingFUOTADeployments dbA 10 7 [] = Except.ok [fdA] ∧
      fdA ∈ [fdA] ∧
      (fdA.State ≠ FUOTADeploymentDone ∧ fdA.NextStepAfter ≤ 7 ∧
        fdA.MulticastGroupID.isSome = true) := by
  have h : GetPendingFUOTADeployments dbA 10 7 [] = Except.ok [fdA] := by decide
  exact ⟨h, List.mem_cons_self _ _,
    getPending_selection_predicate dbA 10 7 [] [fdA] fdA h (List.mem_cons_self _ _)⟩

/-- C8: for every non-negative batch size, the due-batch query returns at
most `batchSize` deployments. -/
theorem getPending_batch_bound (db : Db) (batchSize now : Int)
    (locked : List Nat) (out : List FUOTADeployment)
    (hb : 0 ≤ batchSize)
    (hok : GetPendingFUOTADeployments db batchSize now locked = Except.ok out) :
    (out.length : Int) ≤ batchSize := by
  unfold GetPendingFUOTADeployments at hok
  split at hok
  · exact Except.noConfusion hok
  · have h1 : out.length ≤ batchSize.toNat := by
      rw [scanAll_length hok]
      exact List.length_take_le _ _
    omega

/-- C8 witness: instantiating the batch bound on a concrete store and batch
size. -/
theorem getPending_batch_bound_witness :
    (0 : Int) ≤ 2 ∧ GetPendingFUOTADeployments dbA 2 7 [] = Except.ok [fdA] ∧
      (([fdA] : List FUOTADeployment).length : Int) ≤ 2 := by
  have h : GetPendingFUOTADeployments dbA 2 7 [] = Except.ok [fdA] := by decide
  exact ⟨by decide, h, getPending_batch_bound dbA 2 7 [] [fdA] (by decide) h⟩

/-- C6: a persisted row with a malformed fixed-width field (stored
fragmentation-matrix length ≠ 1 or stored descriptor length ≠ 4) makes
`GetFUOTADeployment` return the scanner's integrity error unchanged instead
of a deployment value, and makes `GetPendingFUOTADeployments` return an
error whenever the malformed row is part of the scanned batch. -/
theorem get_malformed_row_error (db : Db) (id : Nat) (r : FuotaDeploymentRow)
    (hfind : db.fuota_deployment.find? (fun rr => rr.id == id) = some r)
    (hbad : r.fragmentation_matrix.length ≠ 1 ∨ r.descriptor.length ≠ 4) :
    (∃ msg, scanFUOTADeployment r = Except.error (StorageError.scanError msg) ∧
        GetFUOTADeployment db id = Except.error (StorageError.scanError msg)) ∧
    ∀ batchSize now locked,
      r ∈ ((db.fuota_deployment.filter (pendingWhere now)).filter
          (fun rr => !(locked.contains rr.id))).take batchSize.toNat →
      ∃ e, GetPendingFUOTADeployments db batchSize now locked = Except.error e := by
  obtain ⟨msg, hmsg⟩ := scan_malformed hbad
  constructor
  · refine ⟨msg, hmsg, ?_⟩
    unfold GetFUOTADeployment
    rw [hfind]
    exact hmsg
  · intro batchSize now locked hmem
    unfold GetPendingFUOTADeployments
    split
    · exact ⟨_, rfl⟩
    · exact scanAll_error_of_mem hmem hmsg

/-- C6 witness: on a concrete store holding a row whose descriptor has
length 3, both read paths surface an error. -/
theorem get_malformed_row_error_witness :
    (∃ msg, GetFUOTADeployment dbBad 2 = Except.error (StorageError.scanError msg)) ∧
    (∃ e, GetPendingFUOTADeployments dbBad 10 7 [] = Except.error e) := by
  have h := get_malformed_row_error dbBad 2 rowBad (by decide) (by decide)
  obtain ⟨msg, _, hget⟩ := h.1
  exact ⟨⟨msg, hget⟩, h.2 10 7 [] (by decide)⟩

/-- Reading back by id after inserting a deployment row with a fresh id
returns exactly the scanned insert. -/
theorem get_after_insert (rows : List FuotaDeploymentRow)
    (devRows : List FuotaDeploymentDeviceRow) (fd : FUOTADeployment)
    (hfresh : ∀ r ∈ rows, (r.id == fd.ID) = false) :
    GetFUOTADeployment
        { fuota_deployment := rows ++ [rowOfDeployment fd],
          fuota_deployment_device := devRows } fd.ID = Except.ok fd := by
  unfold GetFUOTADeployment
  have h0 : ({ fuota_deployment := rows ++ [rowOfDeployment fd],
               fuota_deployment_device := devRows } : Db).fuota_deployment =
      rows ++ [rowOfDeployment fd] := rfl
  have h1 : (rows ++ [rowOfDeployment fd]).find? (fun r => r.id == fd.ID) =
      some (rowOfDeployment fd) := by
    rw [find_append_of_all_false _ _ _ hfresh]
    rw [List.find?_cons_of_pos]
    simp [rowOfDeployment]
  rw [h0, h1]
  exact scan_rowOfDeployment fd

/-- The deployment produced by a successful create, as stamped by
`CreateFUOTADeploymentForDevice` with `now = 7` and `newId = 42`. -/
def fdStampedA : FUOTADeployment :=
  { fdA with ID := 42, CreatedAt := 7, UpdatedAt := 7, NextStepAfter := 7 }

/-- The pending participation row written by that create. -/
def devRowA : FuotaDeploymentDeviceRow :=
  { fuota_deployment_id := 42, dev_eui := 1, created_at := 7, updated_at := 7,
    state := FUOTADeploymentDevicePending, error_message := "" }

/-- The store after that create. -/
def dbAfterCreate : Db :=
  { fuota_deployment := [rowOfDeployment fdStampedA],
    fuota_deployment_device := [devRowA] }

/-- C3 counterexample: `CreateFUOTADeploymentForDevice` only defaults the
state when the input state is the empty string; an input already carrying
state Done is created in state Done, not in the initial Multicast-Setup
state. -/
theorem create_keeps_nonempty_state :
    (CreateFUOTADeploymentForDevice dbEmpty { fdA with State := FUOTADeploymentDone }
        1 7 42).map (fun p => p.2.State) = Except.ok FUOTADeploymentDone ∧
      FUOTADeploymentDone ≠ FUOTADeploymentMulticastSetup := by
  exact ⟨by decide, by decide⟩

/-- C3 amended: after a successful create the deployment's next-eligible-time
and created-at both equal the creation time `now`, and when the input state
was unset (the empty string) the created deployment is in the initial
Multicast-Setup state. -/
theorem create_initial_state_and_time (db : Db) (fd : FUOTADeployment)
    (devEUI : Nat) (now : Int) (newId : Nat) (db' : Db) (fd' : FUOTADeployment)
    (h : CreateFUOTADeploymentForDevice db fd devEUI now newId =
      Except.ok (db', fd')) :
    (fd.State = "" → fd'.State = FUOTADeploymentMulticastSetup) ∧
      fd'.NextStepAfter = now ∧ fd'.CreatedAt = now := by
  unfold CreateFUOTADeploymentForDevice at h
  split at h
  · exact Except.noConfusion h
  · rw [Except.ok.injEq, Prod.mk.injEq] at h
    obtain ⟨hdb, hfd⟩ := h
    subst hfd
    refine ⟨fun hs => ?_, rfl, rfl⟩
    simp [stampDeployment, hs]

/-- C3 amended witness: a concrete create with unset state yields the
Multicast-Setup state and next-eligible-time equal to the creation time. -/
theorem create_initial_state_and_time_witness :
    ({ fdA with State := "" } : FUOTADeployment).State = "" ∧
      (fdStampedA.State = FUOTADeploymentMulticastSetup ∧
        fdStampedA.NextStepAfter = 7 ∧ fdStampedA.CreatedAt = 7) := by
  have h : CreateFUOTADeploymentForDevice dbEmpty { fdA with State := "" } 1 7 42 =
      Except.ok (dbAfterCreate, fdStampedA) := by decide
  have h2 := create_initial_state_and_time dbEmpty { fdA with State := "" }
    1 7 42 dbAfterCreate fdStampedA h
  exact ⟨rfl, h2.1 rfl, h2.2⟩

/-- C4: creating a deployment and reading it back by its assigned id yields
exactly the created deployment — every attribute, descriptor and payload
byte-exact. -/
theorem create_get_roundtrip (db : Db) (fd : FUOTADeployment) (devEUI : Nat)
    (now : Int) (newId : Nat) (db' : Db) (fd' : FUOTADeployment)
    (h : CreateFUOTADeploymentForDevice db fd devEUI now newId =
      Except.ok (db', fd')) :
    GetFUOTADeployment db' fd'.ID = Except.ok fd' := by
  unfold CreateFUOTADeploymentForDevice at h
  split at h
  · exact Except.noConfusion h
  next hdup =>
    rw [Except.ok.injEq, Prod.mk.injEq] at h
    obtain ⟨hdb, hfd⟩ := h
    subst hdb
    subst hfd
    have hfresh : ∀ r ∈ db.fuota_deployment, (r.id == newId) = false := by
      intro x hx
      rcases Bool.eq_false_or_eq_true (x.id == newId) with ht | hf
      · exact absurd (List.any_eq_true.mpr ⟨x, hx, ht⟩) hdup
      · exact hf
    exact get_after_insert db.fuota_deployment
      (db.fuota_deployment_device ++ [devRowOf newId devEUI now])
      (stampDeployment fd now newId) hfresh

/-- C4 witness: a concrete create followed by a get returns the created
deployment exactly. -/
theorem create_get_roundtrip_witness :
    CreateFUOTADeploymentForDevice dbEmpty fdA 1 7 42 =
        Except.ok (dbAfterCreate, fdStampedA) ∧
      GetFUOTADeployment dbAfterCreate fdStampedA.ID = Except.ok fdStampedA := by
  have h : CreateFUOTADeploymentForDevice dbEmpty fdA 1 7 42 =
      Except.ok (dbAfterCreate, fdStampedA) := by decide
  exact ⟨h, create_get_roundtrip dbEmpty fdA 1 7 42 dbAfterCreate fdStampedA h⟩

theorem stampDeployment_ID (fd : FUOTADeployment) (now : Int) (newId : Nat) :
    (stampDeployment fd now newId).ID = newId := rfl

/-- C5: creating a deployment for a device writes, in the same operation,
exactly one participation record keyed by the new deployment id and the
device EUI, in state Pending with an empty error message — assuming the
store's referential integrity (every existing participation row points at
an existing deployment row). -/
theorem create_participation_record (db : Db) (fd : FUOTADeployment) (devEUI : Nat)
    (now : Int) (newId : Nat) (db' : Db) (fd' : FUOTADeployment)
    (hwf : db.wf)
    (h : CreateFUOTADeploymentForDevice db fd devEUI now newId =
      Except.ok (db', fd')) :
    db'.fuota_deployment_device =
      db.fuota_deployment_device ++ [devRowOf fd'.ID devEUI now] ∧
    db'.fuota_deployment_device.filter
        (fun dr => dr.fuota_deployment_id == fd'.ID && dr.dev_eui == devEUI) =
      [devRowOf fd'.ID devEUI now] ∧
    (devRowOf fd'.ID devEUI now).state = FUOTADeploymentDevicePending ∧
    (devRowOf fd'.ID devEUI now).error_message = "" := by
  unfold CreateFUOTADeploymentForDevice at h
  split at h
  · exact Except.noConfusion h
  next hdup =>
    rw [Except.ok.injEq, Prod.mk.injEq] at h
    obtain ⟨hdb, hfd⟩ := h
    subst hdb
    subst hfd
    have hold : db.fuota_deployment_device.filter
        (fun dr => dr.fuota_deployment_id == newId && dr.dev_eui == devEUI) = [] := by
      rw [List.filter_eq_nil_iff]
      intro dr hdr hp
      rw [Bool.and_eq_true] at hp
      obtain ⟨r, hr, hid⟩ := hwf dr hdr
      refine hdup (List.any_eq_true.mpr ⟨r, hr, ?_⟩)
      rw [hid]
      exact hp.1
    refine ⟨rfl, ?_, rfl, rfl⟩
    simp only [stampDeployment_ID]
    rw [List.filter_append, hold]
    simp [devRowOf]

/-- C5 witness: the concrete create leaves exactly one pending participation
record for (deployment 42, device 1). -/
theorem create_participation_record_witness :
    dbEmpty.wf ∧
    dbAfterCreate.fuota_deployment_device.filter
        (fun dr => dr.fuota_deployment_id == fdStampedA.ID && dr.dev_eui == 1) =
      [devRowOf fdStampedA.ID 1 7] ∧
    (devRowOf fdStampedA.ID 1 7).state = FUOTADeploymentDevicePending ∧
    (devRowOf fdStampedA.ID 1 7).error_message = "" := by
  have h : CreateFUOTADeploymentForDevice dbEmpty fdA 1 7 42 =
      Except.ok (dbAfterCreate, fdStampedA) := by decide
  have h2 := create_participation_record dbEmpty fdA 1 7 42 dbAfterCreate fdStampedA
    (by decide) h
  exact ⟨by decide, h2.2.1, h2.2.2.1, h2.2.2.2⟩

/- ### Update lemmas -/

theorem applyUpdate_id (fd : FUOTADeployment) (r : FuotaDeploymentRow) :
    (applyUpdate fd r).id = r.id := by
  unfold applyUpdate
  split <;> rfl

theorem applyUpdate_created_at (fd : FUOTADeployment) (r : FuotaDeploymentRow) :
    (applyUpdate fd r).created_at = r.created_at := by
  unfold applyUpdate
  split <;> rfl

theorem applyUpdate_of_eq (fd : FUOTADeployment) (r : FuotaDeploymentRow)
    (h : r.id = fd.ID) :
    applyUpdate fd r =
      { r with
        updated_at := fd.UpdatedAt
        name := fd.Name
        multicast_group_id := fd.MulticastGroupID
        fragmentation_matrix := [fd.FragmentationMatrix]
        descriptor := fd.Descriptor.toList
        payload := fd.Payload
        state := fd.State
        next_step_after := fd.NextStepAfter
        unicast_timeout := fd.UnicastTimeout
        frag_size := fd.FragSize
        redundancy := fd.Redundancy
        block_ack_delay := fd.BlockAckDelay
        multicast_timeout := fd.MulticastTimeout } := by
  unfold applyUpdate
  rw [if_pos (show (r.id == fd.ID) = true by simp [h])]

theorem applyUpdate_of_ne (fd : FUOTADeployment) (r : FuotaDeploymentRow)
    (h : r.id ≠ fd.ID) : applyUpdate fd r = r := by
  unfold applyUpdate
  rw [if_neg (show ¬((r.id == fd.ID) = true) by simp [h])]

theorem update_eq_error (db : Db) (fd : FUOTADeployment) (now : Int)
    (h : (db.fuota_deployment.filter (fun r => r.id == fd.ID)).length = 0) :
    UpdateFUOTADeployment db fd now =
      ({ fd with UpdatedAt := now }, Except.error StorageError.doesNotExist) := by
  unfold UpdateFUOTADeployment
  rw [if_pos h]

theorem update_eq_ok (db : Db) (fd : FUOTADeployment) (now : Int)
    (h : ¬(db.fuota_deployment.filter (fun r => r.id == fd.ID)).length = 0) :
    UpdateFUOTADeployment db fd now =
      ({ fd with UpdatedAt := now },
        Except.ok
          { db with
            fuota_deployment :=
              db.fuota_deployment.map (applyUpdate { fd with UpdatedAt := now }) }) := by
  unfold UpdateFUOTADeployment
  rw [if_neg h]

/-- The deployment update used in the concrete scenarios: same id as the
stored `rowA`, but with an earlier next-eligible-time (3 < 5). -/
def fdU : FUOTADeployment := { fdA with NextStepAfter := 3 }

/-- The row `rowA` after `UpdateFUOTADeployment dbA fdU 10`. -/
def rowAUpd : FuotaDeploymentRow :=
  { rowA with updated_at := 10, next_step_after := 3 }

/-- The store after that update. -/
def dbU : Db := { fuota_deployment := [rowAUpd], fuota_deployment_device := [] }

/-- C2 counterexample: `UpdateFUOTADeployment` persists a next-eligible-time
strictly earlier than the previously persisted one — storage enforces no
monotonicity. -/
theorem update_reschedules_into_past :
    rowA.next_step_after = 5 ∧ fdU.NextStepAfter = 3 ∧
    (UpdateFUOTADeployment dbA fdU 10).2 = Except.ok dbU ∧
    dbU.fuota_deployment = [rowAUpd] ∧
    rowAUpd.next_step_after < rowA.next_step_after := by decide

/-- C2 amended: a successful `UpdateFUOTADeployment` persists exactly the
caller-supplied next-eligible-time for every row with the deployment's id
(the storage layer itself does not enforce monotonicity). -/
theorem update_persists_caller_nextStepAfter (db : Db) (fd : FUOTADeployment)
    (now : Int) (db' : Db)
    (h : (UpdateFUOTADeployment db fd now).2 = Except.ok db') :
    (∃ r ∈ db'.fuota_deployment, r.id = fd.ID) ∧
    ∀ r ∈ db'.fuota_deployment, r.id = fd.ID →
      r.next_step_after = fd.NextStepAfter := by
  by_cases hm : (db.fuota_deployment.filter (fun r => r.id == fd.ID)).length = 0
  · rw [update_eq_error db fd now hm] at h
    exact Except.noConfusion h
  · rw [update_eq_ok db fd now hm] at h
    obtain rfl := Except.ok.inj h
    constructor
    · have hne : db.fuota_deployment.filter (fun r => r.id == fd.ID) ≠ [] := by
        intro hnil
        exact hm (by rw [hnil]; rfl)
      obtain ⟨x, hx⟩ := List.exists_mem_of_ne_nil _ hne
      obtain ⟨hxmem, hxp⟩ := List.mem_filter.mp hx
      refine ⟨applyUpdate { fd with UpdatedAt := now } x, ?_, ?_⟩
      · exact List.mem_map_of_mem _ hxmem
      · rw [applyUpdate_id]
        simpa using hxp
    · intro r hr hid
      have hr' : r ∈ db.fuota_deployment.map
          (applyUpdate { fd with UpdatedAt := now }) := hr
      obtain ⟨x, hx, rfl⟩ := List.mem_map.mp hr'
      have hxid : x.id = fd.ID := by
        rw [← applyUpdate_id { fd with UpdatedAt := now } x]
        exact hid
      rw [applyUpdate_of_eq { fd with UpdatedAt := now } x hxid]

/-- C2 amended witness: the concrete update persists next-eligible-time 3,
the caller's value. -/
theorem update_persists_caller_nextStepAfter_witness :
    (UpdateFUOTADeployment dbA fdU 10).2 = Except.ok dbU ∧
    ((∃ r ∈ dbU.fuota_deployment, r.id = fdU.ID) ∧
      ∀ r ∈ dbU.fuota_deployment, r.id = fdU.ID →
        r.next_step_after = fdU.NextStepAfter) := by
  have h : (UpdateFUOTADeployment dbA fdU 10).2 = Except.ok dbU := by decide
  exact ⟨h, update_persists_caller_nextStepAfter dbA fdU 10 dbU h⟩

/-- C7: `UpdateFUOTADeployment` returns the does-not-exist error exactly when
no stored deployment has the given id; when one exists, the update succeeds
and every row with that id carries the given field values. -/
theorem update_doesNotExist_iff (db : Db) (fd : FUOTADeployment) (now : Int) :
    ((UpdateFUOTADeployment db fd now).2 = Except.error StorageError.doesNotExist ↔
      ∀ r ∈ db.fuota_deployment, r.id ≠ fd.ID) ∧
    ((∃ r ∈ db.fuota_deployment, r.id = fd.ID) →
      ∃ db', (UpdateFUOTADeployment db fd now).2 = Except.ok db' ∧
        ∀ r ∈ db'.fuota_deployment, r.id = fd.ID →
          (r.name = fd.Name ∧ r.multicast_group_id = fd.MulticastGroupID ∧
           r.fragmentation_matrix = [fd.FragmentationMatrix] ∧
           r.descriptor = fd.Descriptor.toList ∧ r.payload = fd.Payload ∧
           r.state = fd.State ∧ r.next_step_after = fd.NextStepAfter ∧
           r.unicast_timeout = fd.UnicastTimeout ∧ r.frag_size = fd.FragSize ∧
           r.redundancy = fd.Redundancy ∧ r.block_ack_delay = fd.BlockAckDelay ∧
           r.multicast_timeout = fd.MulticastTimeout)) := by
  by_cases hm : (db.fuota_deployment.filter (fun r => r.id == fd.ID)).length = 0
  · have hnone : ∀ r ∈ db.fuota_deployment, r.id ≠ fd.ID := by
      intro r hr heq
      rw [List.length_eq_zero] at hm
      have : r ∈ db.fuota_deployment.filter (fun r => r.id == fd.ID) :=
        List.mem_filter.mpr ⟨hr, by simp [heq]⟩
      rw [hm] at this
      exact absurd this (List.not_mem_nil r)
    constructor
    · rw [update_eq_error db fd now hm]
      exact ⟨fun _ => hnone, fun _ => rfl⟩
    · intro hex
      obtain ⟨r, hr, heq⟩ := hex
      exact absurd heq (hnone r hr)
  · constructor
    · rw [update_eq_ok db fd now hm]
      constructor
      · intro hcon
        exact Except.noConfusion hcon
      · intro hall
        exfalso
        apply hm
        rw [List.length_eq_zero, List.filter_eq_nil_iff]
        intro r hr
        simp [hall r hr]
    · intro _
      refine ⟨{ db with
          fuota_deployment :=
            db.fuota_deployment.map (applyUpdate { fd with UpdatedAt := now }) },
        ?_, ?_⟩
      · rw [update_eq_ok db fd now hm]
      · intro r hr hid
        have hr' : r ∈ db.fuota_deployment.map
            (applyUpdate { fd with UpdatedAt := now }) := hr
        obtain ⟨x, hx, rfl⟩ := List.mem_map.mp hr'
        have hxid : x.id = fd.ID := by
          rw [← applyUpdate_id { fd with UpdatedAt := now } x]
          exact hid
        rw [applyUpdate_of_eq { fd with UpdatedAt := now } x hxid]
        exact ⟨rfl, rfl, rfl, rfl, rfl, rfl, rfl, rfl, rfl, rfl, rfl, rfl⟩

/-- C7 witness: on a store containing the deployment, the update succeeds
and persists the given fields. -/
theorem update_doesNotExist_iff_witness :
    (∃ r ∈ dbA.fuota_deployment, r.id = fdU.ID) ∧
    (∃ db', (UpdateFUOTADeployment dbA fdU 10).2 = Except.ok db' ∧
      ∀ r ∈ db'.fuota_deployment, r.id = fdU.ID →
        (r.name = fdU.Name ∧ r.multicast_group_id = fdU.MulticastGroupID ∧
         r.fragmentation_matrix = [fdU.FragmentationMatrix] ∧
         r.descriptor = fdU.Descriptor.toList ∧ r.payload = fdU.Payload ∧
         r.state = fdU.State ∧ r.next_step_after = fdU.NextStepAfter ∧
         r.unicast_timeout = fdU.UnicastTimeout ∧ r.frag_size = fdU.FragSize ∧
         r.redundancy = fdU.Redundancy ∧ r.block_ack_delay = fdU.BlockAckDelay ∧
         r.multicast_timeout = fdU.MulticastTimeout)) := by
  have hex : ∃ r ∈ dbA.fuota_deployment, r.id = fdU.ID :=
    ⟨rowA, by decide, by decide⟩
  exact ⟨hex, (update_doesNotExist_iff dbA fdU 10).2 hex⟩

/-- C9: a successful `UpdateFUOTADeployment` rewrites the table row-by-row:
a row with the deployment's id keeps its `id` and `created_at`, gets
`updated_at := now` and every other modeled field from the argument; any
other row is untouched. -/
theorem update_frame_id_createdAt (db : Db) (fd : FUOTADeployment) (now : Int)
    (db' : Db) (h : (UpdateFUOTADeployment db fd now).2 = Except.ok db') :
    db'.fuota_deployment =
      db.fuota_deployment.map (applyUpdate { fd with UpdatedAt := now }) ∧
    ∀ r : FuotaDeploymentRow,
      (applyUpdate { fd with UpdatedAt := now } r).id = r.id ∧
      (applyUpdate { fd with UpdatedAt := now } r).created_at = r.created_at ∧
      (r.id ≠ fd.ID → applyUpdate { fd with UpdatedAt := now } r = r) ∧
      (r.id = fd.ID →
        (applyUpdate { fd with UpdatedAt := now } r).updated_at = now ∧
        (applyUpdate { fd with UpdatedAt := now } r).name = fd.Name ∧
        (applyUpdate { fd with UpdatedAt := now } r).multicast_group_id =
          fd.MulticastGroupID ∧
        (applyUpdate { fd with UpdatedAt := now } r).fragmentation_matrix =
          [fd.FragmentationMatrix] ∧
        (applyUpdate { fd with UpdatedAt := now } r).descriptor =
          fd.Descriptor.toList ∧
        (applyUpdate { fd with UpdatedAt := now } r).payload = fd.Payload ∧
        (applyUpdate { fd with UpdatedAt := now } r).state = fd.State ∧
        (applyUpdate { fd with UpdatedAt := now } r).next_step_after =
          fd.NextStepAfter ∧
        (applyUpdate { fd with UpdatedAt := now } r).unicast_timeout =
          fd.UnicastTimeout ∧
        (applyUpdate { fd with UpdatedAt := now } r).frag_size = fd.FragSize ∧
        (applyUpdate { fd with UpdatedAt := now } r).redundancy = fd.Redundancy ∧
        (applyUpdate { fd with UpdatedAt := now } r).block_ack_delay =
          fd.BlockAckDelay ∧
        (applyUpdate { fd with UpdatedAt := now } r).multicast_timeout =
          fd.MulticastTimeout) := by
  constructor
  · by_cases hm : (db.fuota_deployment.filter (fun r => r.id == fd.ID)).length = 0
    · rw [update_eq_error db fd now hm] at h
      exact Except.noConfusion h
    · rw [update_eq_ok db fd now hm] at h
      obtain rfl := Except.ok.inj h
      rfl
  · intro r
    by_cases hid : r.id = fd.ID
    · rw [applyUpdate_of_eq { fd with UpdatedAt := now } r hid]
      exact ⟨rfl, rfl, fun hne => absurd hid hne,
        fun _ => ⟨rfl, rfl, rfl, rfl, rfl, rfl, rfl, rfl, rfl, rfl, rfl, rfl, rfl⟩⟩
    · rw [applyUpdate_of_ne { fd with UpdatedAt := now } r hid]
      exact ⟨rfl, rfl, fun _ => rfl, fun he => absurd he hid⟩

/-- C9 witness: the concrete update maps the table through `applyUpdate`,
keeping id and created-at of the stored row. -/
theorem update_frame_id_createdAt_witness :
    (UpdateFUOTADeployment dbA fdU 10).2 = Except.ok dbU ∧
    dbU.fuota_deployment =
      dbA.fuota_deployment.map (applyUpdate { fdU with UpdatedAt := 10 }) ∧
    rowAUpd.id = rowA.id ∧ rowAUpd.created_at = rowA.created_at := by
  have h : (UpdateFUOTADeployment dbA fdU 10).2 = Except.ok dbU := by decide
  exact ⟨h, (update_frame_id_createdAt dbA fdU 10 dbU h).1, by decide, by decide⟩

/-- C10: `UpdateFUOTADeployment` overwrites the caller's in-memory
deployment's `UpdatedAt` with the current time before the existence check,
so even on the does-not-exist path (e.g. an empty store, where nothing is
persisted) the returned in-memory deployment has been mutated. -/
theorem update_mutates_caller_struct (db : Db) (fd : FUOTADeployment) (now : Int) :
    (UpdateFUOTADeployment db fd now).1 = { fd with UpdatedAt := now } ∧
    (db.fuota_deployment = [] →
      (UpdateFUOTADeployment db fd now).2 =
        Except.error StorageError.doesNotExist) := by
  constructor
  · by_cases hm : (db.fuota_deployment.filter (fun r => r.id == fd.ID)).length = 0
    · rw [update_eq_error db fd now hm]
    · rw [update_eq_ok db fd now hm]
  · intro hnil
    have hm : (db.fuota_deployment.filter (fun r => r.id == fd.ID)).length = 0 := by
      rw [hnil]
      rfl
    rw [update_eq_error db fd now hm]

/-- C10 witness: updating against an empty store returns the does-not-exist
error, yet the returned in-memory deployment already has its `UpdatedAt`
overwritten. -/
theorem update_mutates_caller_struct_witness :
    dbEmpty.fuota_deployment = [] ∧
    (UpdateFUOTADeployment dbEmpty fdA 10).1 = { fdA with UpdatedAt := 10 } ∧
    (UpdateFUOTADeployment dbEmpty fdA 10).2 =
      Except.error StorageError.doesNotExist := by
  have h := update_mutates_caller_struct dbEmpty fdA 10
  exact ⟨rfl, h.1, h.2 rfl⟩

end FuotaStorage
